import Mathlib

/-!
Verification of the streamtune/acl authorization engine.

This file gives a shallow embedding, in Lean, of the Go sources of the
streamtune/acl repository: the Permission bitmask, the Sid identity values,
the access-control entries and Acl state, the permission checker
(`checker.Check` together with `acl.IsGranted`), the mutation-authorization
gate (`authorizer.Authorize`), the Acl mutators of `acl.go`, the Sid
retrieval helper (`sid.New`), and the dual-keyed cache of `cache.go`.
Each definition mirrors the corresponding Go function statement by
statement; theorems below settle the specification claims against them.
-/

namespace StreamtuneAcl

/-! ### Permission (Go package `permission`, type `Permission uint32`) -/

abbrev Perm := Nat

/-- Go: `func (p Permission) Match(other Permission) bool { return p&other != 0 }`. -/
def permMatch (p other : Perm) : Bool :=
  Nat.land p other != 0

/-- Go constant block: `NoPermission = 0`, then `ReadPermission = 1 << iota`
with iota = 1 on that line, so Read = 2, Write = 4, Create = 8, Delete = 16,
Administration = 32. -/
def noPermission : Perm := 0

def readPermission : Perm := 2

def writePermission : Perm := 4

def createPermission : Perm := 8

def deletePermission : Perm := 16

def administrationPermission : Perm := 32

/-! ### Sid (Go package `sid`: concrete kinds `Principal` and `Authority`) -/

inductive Sid where
  | principal (name : String)
  | authority (name : String)
deriving DecidableEq

/-- Go `Principal.Equals` / `Authority.Equals`: a type assertion to the same
concrete kind followed by string comparison; cross-kind comparison is false. -/
def sidEquals : Sid → Sid → Bool
  | .principal a, .principal b => a == b
  | .authority a, .authority b => a == b
  | _, _ => false

/-! ### Access-control entries (Go `accessControlEntry` in acl.go) -/

/-- The fields of the concrete `*accessControlEntry` type that the checker,
the auditors and the mutators read (the `id` and back-pointer to the owning
Acl play no role in any claim). -/
structure AceData where
  sid : Sid
  permission : Perm
  granting : Bool
  auditSuccess : Bool
  auditFailure : Bool
deriving DecidableEq

/-- A stored `Ace` interface value: either the package's concrete
`*accessControlEntry` (which is also `audit.Auditable`), or some foreign
implementation of the `Ace` interface that is neither the concrete type nor
auditable.  The ignored type assertions in `UpdateAce`/`UpdateAuditing` and
the `audit.Auditable` assertion in the checker distinguish exactly these two
cases. -/
inductive AceObj where
  | entry (d : AceData)
  | foreign (sid : Sid) (permission : Perm) (granting : Bool)
deriving DecidableEq

def AceObj.getSid : AceObj → Sid
  | .entry d => d.sid
  | .foreign s _ _ => s

def AceObj.getPermission : AceObj → Perm
  | .entry d => d.permission
  | .foreign _ p _ => p

def AceObj.isGranting : AceObj → Bool
  | .entry d => d.granting
  | .foreign _ _ g => g

/-- Whether the Go type assertion `ace.(audit.Auditable)` succeeds. -/
def AceObj.isAuditable : AceObj → Bool
  | .entry _ => true
  | .foreign _ _ _ => false

/-- The auditSuccess flag as seen through the `Auditable` interface
(meaningless for a foreign, non-auditable entry). -/
def AceObj.auditSuccessFlag : AceObj → Bool
  | .entry d => d.auditSuccess
  | .foreign _ _ _ => false

def AceObj.auditFailureFlag : AceObj → Bool
  | .entry d => d.auditFailure
  | .foreign _ _ _ => false

/-! ### Acl state (Go `type acl struct` in acl.go)

The `authorizer` and `checker` fields of the Go struct are function values
fixed at construction; the authorizer is passed explicitly to the mutator
embeddings below, and the checker is the `check` function itself. -/

inductive AclState where
  | mk (id : Nat) (oid : String × Nat) (owner : Sid) (parent : Option AclState)
       (inherits : Bool) (aces : List AceObj) (loaded : Option (List Sid))

def AclState.getID : AclState → Nat
  | .mk i _ _ _ _ _ _ => i

def AclState.getIdentity : AclState → String × Nat
  | .mk _ o _ _ _ _ _ => o

def AclState.getOwner : AclState → Sid
  | .mk _ _ ow _ _ _ _ => ow

def AclState.getParent : AclState → Option AclState
  | .mk _ _ _ p _ _ _ => p

def AclState.isEntriesInheriting : AclState → Bool
  | .mk _ _ _ _ inh _ _ => inh

def AclState.acesList : AclState → List AceObj
  | .mk _ _ _ _ _ aces _ => aces

def AclState.loadedSids : AclState → Option (List Sid)
  | .mk _ _ _ _ _ _ l => l

/-- Go `GetEntries`: returns a copy of the internal slice; as a pure value
this is the entry list itself (the freshness of the copy is modelled by the
heap embedding further below). -/
def AclState.getEntries (a : AclState) : List AceObj :=
  a.acesList

/-- Go `acl.IsSidLoaded`: nil `loaded` means all Sids represented; a nil or
empty request list is always loaded; otherwise every requested Sid must equal
some loaded Sid. -/
def AclState.isSidLoaded (a : AclState) (sids : List Sid) : Bool :=
  match a.loadedSids with
  | none => true
  | some loaded =>
      if sids.isEmpty then true
      else sids.all (fun s => loaded.any (fun loadedSid => sidEquals s loadedSid))

/-! ### The permission checker (Go `checker.Check`, src/unnamed/part_002) -/

/-- The innermost `for _, ace := range aces` loop: find the first entry whose
permission matches and whose sid equals the requested one. -/
def findMatch (aces : List AceObj) (p : Perm) (s : Sid) : Option AceObj :=
  aces.find? (fun ace => permMatch ace.getPermission p && sidEquals ace.getSid s)

inductive SidScan where
  | grantedBy (ace : AceObj)
  | rejected (firstRejection : Option AceObj)
deriving DecidableEq

/-- The `for _, sid := range sids` loop of `checker.Check`, including the
`scanNextSid` control variable exactly as written in the source: it is
initialised to `false` for each sid, only ever re-assigned to `false`, and
`if !scanNextSid { break }` follows the inner scan, so the loop leaves after
the first sid no matter what the scan found. -/
def sidLoop (aces : List AceObj) (p : Perm) :
    List Sid → Option AceObj → SidScan
  | [], firstRejection => .rejected firstRejection
  | s :: rest, firstRejection =>
      match findMatch aces p s with
      | some ace =>
          if ace.isGranting then
            .grantedBy ace
          else
            let firstRejection :=
              if firstRejection.isNone then some ace else firstRejection
            let scanNextSid := false
            if scanNextSid then sidLoop aces p rest firstRejection
            else .rejected firstRejection
      | none =>
          let scanNextSid := false
          if scanNextSid then sidLoop aces p rest firstRejection
          else .rejected firstRejection

inductive PermScan where
  | granted (ace : AceObj)
  | fellThrough (firstRejection : Option AceObj)
deriving DecidableEq

/-- The outer `for _, p := range permissions` loop of `checker.Check`. -/
def permLoop (aces : List AceObj) (sids : List Sid) :
    List Perm → Option AceObj → PermScan
  | [], firstRejection => .fellThrough firstRejection
  | p :: ps, firstRejection =>
      match sidLoop aces p sids firstRejection with
      | .grantedBy ace => .granted ace
      | .rejected fr => permLoop aces sids ps fr

/-- The result of `Check`/`IsGranted`: the Go `(bool, error)` pair, plus the
sequence of `auditor.Audit(granted, ace)` calls the checker performed. -/
structure CheckOut where
  granted : Bool
  err : Option String
  audits : List (Bool × AceObj)
deriving DecidableEq

/-- One call site `if auditable, ok := ace.(audit.Auditable); ok && !admin
{ c.auditor.Audit(g, auditable) }`. -/
def auditCall (admin : Bool) (g : Bool) (ace : AceObj) : List (Bool × AceObj) :=
  if ace.isAuditable && !admin then [(g, ace)] else []

/-- The console auditor (Go `consoleAuditor.Audit`): of the calls the checker
makes, it prints exactly those where the entry's matching audit flag is set. -/
def consoleOutput (events : List (Bool × AceObj)) : List (Bool × AceObj) :=
  events.filter (fun ev =>
    if ev.1 then ev.2.auditSuccessFlag else ev.2.auditFailureFlag)

def noEntryFoundMsg : String := "No entry found"

def unloadedSidMsg : String := "No all the requested Sid where loaded."

/-- Go `checker.Check` (src/unnamed/part_002, package acl): walk the loops;
on a granting match return `(true, nil)` at once; otherwise audit the first
recorded rejection, then — without returning — consult the parent through
`parent.IsGranted` when inheriting, and fail with "No entry found" at the top
of the chain.  The recursive call inlines `acl.IsGranted` of acl.go (the
loaded-Sid gate in front of `checker.Check`). -/
def check : AclState → List Perm → List Sid → Bool → CheckOut
  | .mk _ _ _ parentOpt inherits aces _, permissions, sids, admin =>
      match permLoop aces sids permissions none with
      | .granted ace =>
          { granted := true, err := none, audits := auditCall admin true ace }
      | .fellThrough firstRejection =>
          let rejectionAudits :=
            match firstRejection with
            | some ace => auditCall admin false ace
            | none => []
          match parentOpt, inherits with
          | some parent, true =>
              let out :=
                if parent.isSidLoaded sids then check parent permissions sids admin
                else { granted := false, err := some unloadedSidMsg, audits := [] }
              { granted := out.granted, err := out.err,
                audits := rejectionAudits ++ out.audits }
          | _, _ =>
              { granted := false, err := some noEntryFoundMsg,
                audits := rejectionAudits }

/-- Go `acl.IsGranted` (acl.go): the loaded-Sid gate, then delegation to the
checker. -/
def isGranted (a : AclState) (permissions : List Perm) (sids : List Sid)
    (admin : Bool) : CheckOut :=
  if a.isSidLoaded sids then check a permissions sids admin
  else { granted := false, err := some unloadedSidMsg, audits := [] }

/-- `checker.Check` recurses through `parent.IsGranted`; this equation makes
the inlined recursive call of `check` explicit. -/
theorem check_parent_isGranted (i : Nat) (o : String × Nat) (ow : Sid)
    (parent : AclState) (aces : List AceObj) (l : Option (List Sid))
    (permissions : List Perm) (sids : List Sid) (admin : Bool)
    (h : permLoop aces sids permissions none = .fellThrough none) :
    check (.mk i o ow (some parent) true aces l) permissions sids admin =
      isGranted parent permissions sids admin := by
  simp [check, h, isGranted]

-- Quick sanity evaluations of the checker (spec section 8 scenarios).
example :
    isGranted (.mk 1 ("Document", 42) (.principal "alice") none false
        [.entry { sid := .principal "bob", permission := readPermission,
                  granting := true, auditSuccess := false, auditFailure := false }]
        none)
      [readPermission] [.principal "bob"] false =
      { granted := true, err := none,
        audits := [(true, .entry { sid := .principal "bob",
                                   permission := readPermission, granting := true,
                                   auditSuccess := false, auditFailure := false })] } := by
  rfl

example :
    (isGranted (.mk 1 ("Document", 42) (.principal "alice") none false
        [.entry { sid := .principal "bob", permission := readPermission,
                  granting := true, auditSuccess := false, auditFailure := false }]
        none)
      [writePermission] [.principal "bob"] false).err = some noEntryFoundMsg := by
  rfl

/-! ### The mutation-authorization gate (Go `authorizer.Authorize`,
src/unnamed/part_002, package acl) -/

inductive Change where
  | ownership
  | auditing
  | general
deriving DecidableEq

def permissionDeniedMsg : String :=
  "Principal does not have required ACL permissions to perform required operation."

def unsupportedChangeMsg : String := "Unsupported change type"

/-- Go `authorizer.Authorize`.  The `authorizations` map of the Go struct is
the function argument; the caller's Sid list stands for the result of
`sid.Retrieve(ctx)` (the nil-context and retrieval-error paths are outside
the claims).  On an empty list the Go code panics at `sids[0]`; that is
represented by a distinguished error.  Note the literal condition
`err != nil && ok` on the `IsGranted` probe, exactly as in the source. -/
def authorize (authorizations : Change → Option Sid) (a : AclState)
    (sids : List Sid) (chg : Change) : Option String :=
  match sids with
  | [] => some "panic: index out of range"
  | currentUser :: _ =>
      if sidEquals currentUser a.getOwner &&
          (chg == Change.general || chg == Change.ownership) then
        none
      else
        match authorizations chg with
        | none => some unsupportedChangeMsg
        | some authority =>
            if sids.any (fun v => sidEquals v authority) then
              none
            else
              let out := isGranted a [administrationPermission] sids false
              if out.err.isSome && out.granted then
                none
              else
                some permissionDeniedMsg

/-! ### Acl mutators (acl.go)

Each mutator returns either the updated state, or the error it reported
together with the state as it stood when the error was returned, or a
nil-pointer panic (the ignored type assertion in `UpdateAce` and
`UpdateAuditing` yields a nil `*accessControlEntry` when the stored entry is
a foreign implementation, and the following field write dereferences it). -/

inductive MResult where
  | ok (s : AclState)
  | fail (msg : String) (s : AclState)
  | nilPanic

/-- Go `acl.verifyIndexExists`. -/
def verifyIndexExists (a : AclState) (index : Int) : Option String :=
  if index < 0 then
    some "index must be greater thant or equal to zero"
  else if index ≥ (a.acesList.length : Int) then
    some ("index must refer to an index of Ace list. List size is " ++
      toString a.acesList.length ++ ", index was " ++ toString index)
  else
    none

def AclState.withAces : AclState → List AceObj → AclState
  | .mk i o ow p inh _ l, newAces => .mk i o ow p inh newAces l

def AclState.withOwner : AclState → Sid → AclState
  | .mk i o _ p inh aces l, newOwner => .mk i o newOwner p inh aces l

def AclState.withParent : AclState → Option AclState → AclState
  | .mk i o ow _ inh aces l, newParent => .mk i o ow newParent inh aces l

def AclState.withInherits : AclState → Bool → AclState
  | .mk i o ow p _ aces l, newInherits => .mk i o ow p newInherits aces l

/-- Value equality on Acl states, standing in for the Go pointer comparison
`acl == newParent` in `SetParent` (a pointer to oneself compares equal as a
value as well). -/
def aclBeq : AclState → AclState → Bool
  | .mk i1 o1 ow1 p1 inh1 a1 l1, .mk i2 o2 ow2 p2 inh2 a2 l2 =>
      i1 == i2 && decide (o1 = o2) && decide (ow1 = ow2) && inh1 == inh2 &&
      decide (a1 = a2) && decide (l1 = l2) &&
      match p1, p2 with
      | none, none => true
      | some x, some y => aclBeq x y
      | _, _ => false

/-- Go `acl.InsertAce`: gate (General), index bound check `0 <= index <=
len(aces)`, then insertion of a fresh concrete entry with both audit flags
false. -/
def insertAce (authz : AclState → Change → Option String) (a : AclState)
    (index : Int) (p : Perm) (s : Sid) (granting : Bool) : MResult :=
  match authz a .general with
  | some e => .fail e a
  | none =>
      if index < 0 || index > (a.acesList.length : Int) then
        .fail "Invalid index for ACE creation" a
      else
        let ace : AceObj := .entry ⟨s, p, granting, false, false⟩
        .ok (a.withAces (a.acesList.take index.toNat ++ [ace] ++
          a.acesList.drop index.toNat))

/-- Go `acl.UpdateAce`: gate (General), `verifyIndexExists`, then the ignored
type assertion and the in-place permission update. -/
def updateAce (authz : AclState → Change → Option String) (a : AclState)
    (index : Int) (p : Perm) : MResult :=
  match authz a .general with
  | some e => .fail e a
  | none =>
      match verifyIndexExists a index with
      | some e => .fail e a
      | none =>
          match a.acesList.get? index.toNat with
          | some (.entry d) =>
              .ok (a.withAces (a.acesList.set index.toNat
                (.entry { d with permission := p })))
          | _ => .nilPanic

/-- Go `acl.DeleteAce`: gate (General), `verifyIndexExists`, then removal. -/
def deleteAce (authz : AclState → Change → Option String) (a : AclState)
    (index : Int) : MResult :=
  match authz a .general with
  | some e => .fail e a
  | none =>
      match verifyIndexExists a index with
      | some e => .fail e a
      | none =>
          .ok (a.withAces (a.acesList.take index.toNat ++
            a.acesList.drop (index.toNat + 1)))

/-- Go `acl.SetOwner`: gate (Ownership), then the owner update. -/
def setOwner (authz : AclState → Change → Option String) (a : AclState)
    (newOwner : Sid) : MResult :=
  match authz a .ownership with
  | some e => .fail e a
  | none => .ok (a.withOwner newOwner)

/-- Go `acl.SetParent`: gate (General), the self-parent check, then the
parent update. -/
def setParent (authz : AclState → Change → Option String) (a : AclState)
    (newParent : Option AclState) : MResult :=
  match authz a .general with
  | some e => .fail e a
  | none =>
      match newParent with
      | some np =>
          if aclBeq a np then .fail "Cannot be the parent of yourself" a
          else .ok (a.withParent newParent)
      | none => .ok (a.withParent none)

/-- Go `acl.SetEntriesInheriting`: gate (General), then the flag update. -/
def setEntriesInheriting (authz : AclState → Change → Option String)
    (a : AclState) (entriesInheriting : Bool) : MResult :=
  match authz a .general with
  | some e => .fail e a
  | none => .ok (a.withInherits entriesInheriting)

/-- Go `acl.UpdateAuditing`: gate (Auditing), `verifyIndexExists`, then the
ignored type assertion and the two audit-flag writes. -/
def updateAuditing (authz : AclState → Change → Option String) (a : AclState)
    (index : Int) (success failure : Bool) : MResult :=
  match authz a .auditing with
  | some e => .fail e a
  | none =>
      match verifyIndexExists a index with
      | some e => .fail e a
      | none =>
          match a.acesList.get? index.toNat with
          | some (.entry d) =>
              .ok (a.withAces (a.acesList.set index.toNat
                (.entry { d with auditSuccess := success, auditFailure := failure })))
          | _ => .nilPanic

/-! ### Sid retrieval (Go `sid.New`, src/unnamed/part_003)

The Go slice of interface values may hold nil Sids, so elements are
`Option Sid`.  `make([]Sid, len(authorities)+1)` allocates that many nil
elements, and the subsequent `append` calls add to them rather than fill
them. -/

def sidsNew (principalName : String) (authorities : List String) :
    List (Option Sid) :=
  let sids : List (Option Sid) := List.replicate (authorities.length + 1) none
  (sids ++ [some (.principal principalName)]) ++
    authorities.map (fun au => some (.authority au))

/-! ### The dual-keyed cache (cache.go) -/

/-- What the cache stores: a `MutableAcl` reference, of which the cache reads
only `GetID` and `GetIdentity`. -/
structure MAcl where
  mid : Nat
  moid : String × Nat
deriving DecidableEq

/-- Go map lookup `m[k]` with its ok flag. -/
def assocGet {α β : Type} [DecidableEq α] (m : List (α × β)) (k : α) :
    Option β :=
  (m.find? (fun kv => decide (kv.1 = k))).map (fun kv => kv.2)

/-- Go map store `m[k] = v`. -/
def assocPut {α β : Type} [DecidableEq α] (m : List (α × β)) (k : α) (v : β) :
    List (α × β) :=
  (k, v) :: m.filter (fun kv => !decide (kv.1 = k))

/-- Go `delete(m, k)`. -/
def assocDel {α β : Type} [DecidableEq α] (m : List (α × β)) (k : α) :
    List (α × β) :=
  m.filter (fun kv => !decide (kv.1 = k))

structure CacheState where
  idCache : List (Nat × MAcl)
  oidCache : List ((String × Nat) × MAcl)
deriving DecidableEq

/-- Go `defaultCache.PutInCache`: writes both indices. -/
def putInCache (c : CacheState) (a : MAcl) : CacheState :=
  { idCache := assocPut c.idCache a.mid a,
    oidCache := assocPut c.oidCache a.moid a }

def getFromCacheByID (c : CacheState) (i : Nat) : Option MAcl :=
  assocGet c.idCache i

def getFromCacheByOid (c : CacheState) (o : String × Nat) : Option MAcl :=
  assocGet c.oidCache o

/-- Go `defaultCache.EvictFromCacheByID`: looks the Acl up by primary key and
removes both its entries, finding the companion key through the cached Acl's
own `GetIdentity`. -/
def evictFromCacheByID (c : CacheState) (i : Nat) : CacheState :=
  match assocGet c.idCache i with
  | some acl =>
      { idCache := assocDel c.idCache i,
        oidCache := assocDel c.oidCache acl.moid }
  | none => c

/-- Go `defaultCache.EvictFromCacheByOid`. -/
def evictFromCacheByOid (c : CacheState) (o : String × Nat) : CacheState :=
  match assocGet c.oidCache o with
  | some acl =>
      { idCache := assocDel c.idCache acl.mid,
        oidCache := assocDel c.oidCache o }
  | none => c

/-- Go `defaultCache.ClearCache`. -/
def clearCache (_ : CacheState) : CacheState :=
  { idCache := [], oidCache := [] }

/-! ### Slice allocation model for `GetEntries` (acl.go)

Go's `GetEntries` does `result := make([]Ace, len(acl.aces)); copy(result,
acl.aces); return result`: it allocates a fresh backing array and copies the
entry list into it.  A heap of allocated entry slices makes the freshness
observable: the Acl's own entries live in one cell, and `GetEntries` returns
a reference to a newly appended cell holding the copied contents. -/

abbrev Heap := List (List AceObj)

def heapRead (h : Heap) (r : Nat) : List AceObj :=
  h.getD r []

def heapWrite (h : Heap) (r : Nat) (v : List AceObj) : Heap :=
  h.set r v

/-- `GetEntries` against the heap: copy the Acl's entry cell into a fresh
cell and hand back the new reference. -/
def getEntriesAlloc (h : Heap) (acesRef : Nat) : Heap × Nat :=
  (h ++ [heapRead h acesRef], h.length)

/-! ## Concrete fixtures used by the claim theorems -/

def bobDenyAce : AceData :=
  ⟨.principal "bob", readPermission, false, false, true⟩

/-- Acl for `("Document", 42)`, owner alice, one denying entry for bob with
auditFailure set; no parent. -/
def c1Acl : AclState :=
  .mk 7 ("Document", 42) (.principal "alice") none true [.entry bobDenyAce] none

def c1GrantAce : AceData :=
  ⟨.principal "bob", readPermission, true, false, false⟩

def c1ParentAcl : AclState :=
  .mk 8 ("Folder", 1) (.principal "alice") none false [.entry c1GrantAce] none

/-- Same denying entry, but now with an inheriting parent that grants. -/
def c1ChildAcl : AclState :=
  .mk 7 ("Document", 42) (.principal "alice") (some c1ParentAcl) true
    [.entry bobDenyAce] none

/-- Claim C1: after the loops record a rejection and find no grant, the code
does not return `(false, nil)`: with no parent it returns the "No entry
found" error (while still auditing the rejection), and with an inheriting
parent it consults the parent and can even grant.  The first conjunct
evaluates the spec's own concrete deny scenario; the last two show the
recorded rejection is not final. -/
theorem c1_deny_falls_through :
    isGranted c1Acl [readPermission] [Sid.principal "bob"] false =
      { granted := false, err := some noEntryFoundMsg,
        audits := [(false, .entry bobDenyAce)] } ∧
    (isGranted c1ChildAcl [readPermission] [Sid.principal "bob"] false).granted
      = true ∧
    (isGranted c1ChildAcl [readPermission] [Sid.principal "bob"] false).err
      = none :=
  ⟨rfl, rfl, rfl⟩

def c2GrantAce : AceData :=
  ⟨.principal "bob", readPermission, true, false, false⟩

def c2Acl : AclState :=
  .mk 2 ("Document", 43) (.principal "alice") none false [.entry c2GrantAce] none

/-- Claim C2: the sid loop never advances past the first requested sid.  With
sids `[carol, bob]` the granting entry for bob is never examined and the call
fails with "No entry found"; with bob first, the very same Acl grants. -/
theorem c2_second_sid_skipped :
    isGranted c2Acl [readPermission]
        [Sid.principal "carol", Sid.principal "bob"] false =
      { granted := false, err := some noEntryFoundMsg, audits := [] } ∧
    isGranted c2Acl [readPermission] [Sid.principal "bob"] false =
      { granted := true, err := none, audits := [(true, .entry c2GrantAce)] } :=
  ⟨rfl, rfl⟩

def c3AdminAce : AceData :=
  ⟨.principal "bob", administrationPermission, true, false, false⟩

def c3Acl : AclState :=
  .mk 3 ("Document", 44) (.principal "alice") none false [.entry c3AdminAce] none

def c3Authorizations : Change → Option Sid :=
  fun _ => some (Sid.authority "ROLE_ADMIN")

/-- Claim C3: bob is not the owner and holds no required authority, and
`IsGranted([Administration], [bob], false)` on the Acl returns `(true, nil)`;
yet `Authorize` denies, because its condition `err != nil && ok` only honours
a grant that arrives together with a non-nil error, which never happens. -/
theorem c3_admin_grant_not_honored :
    (isGranted c3Acl [administrationPermission] [Sid.principal "bob"]
        false).granted = true ∧
    (isGranted c3Acl [administrationPermission] [Sid.principal "bob"]
        false).err = none ∧
    authorize c3Authorizations c3Acl [Sid.principal "bob"] Change.general =
      some permissionDeniedMsg :=
  ⟨rfl, rfl, rfl⟩

/-- Claim C7: for principal "alice" with one authority, the retrieval helper
returns a slice of length 4 that starts with two nil Sids — not a slice of
length 2 with the principal first — because `make([]Sid, n+1)` already
creates `n+1` nil elements that the later `append` calls do not overwrite. -/
theorem c7_sid_retrieval_shape :
    sidsNew "alice" ["role1"] =
      [none, none, some (Sid.principal "alice"), some (Sid.authority "role1")] ∧
    (sidsNew "alice" ["role1"]).length = 4 :=
  ⟨rfl, rfl⟩

/-! ## Cache round trip (Claim C8) -/

theorem assocGet_put_self {α β : Type} [DecidableEq α] (m : List (α × β))
    (k : α) (v : β) : assocGet (assocPut m k v) k = some v := by
  simp [assocGet, assocPut, List.find?]

theorem assocGet_del_self {α β : Type} [DecidableEq α] (m : List (α × β))
    (k : α) : assocGet (assocDel m k) k = none := by
  have h : (assocDel m k).find? (fun kv => decide (kv.1 = k)) = none := by
    rw [List.find?_eq_none]
    intro kv hmem
    rcases List.mem_filter.mp hmem with ⟨_, hkeep⟩
    simpa using hkeep
  simp [assocGet, h]

/-- Claim C8: putting a mutable Acl caches it under both its primary key and
its object identity; evicting by primary key removes both entries, the
companion one via the cached Acl's own `GetIdentity`. -/
theorem c8_cache_round_trip (c : CacheState) (a : MAcl) :
    getFromCacheByID (putInCache c a) a.mid = some a ∧
    getFromCacheByOid (putInCache c a) a.moid = some a ∧
    getFromCacheByID (evictFromCacheByID (putInCache c a) a.mid) a.mid
      = none ∧
    getFromCacheByOid (evictFromCacheByID (putInCache c a) a.mid) a.moid
      = none := by
  have hid : assocGet (putInCache c a).idCache a.mid = some a :=
    assocGet_put_self _ _ _
  refine ⟨hid, assocGet_put_self _ _ _, ?_, ?_⟩
  · simp [evictFromCacheByID, hid, getFromCacheByID, assocGet_del_self]
  · simp [evictFromCacheByID, hid, getFromCacheByOid, assocGet_del_self]

/-! ## Loop characterization lemmas for the checker -/

/-- One step of the sid loop: only the head sid is ever examined, because the
`scanNextSid` flag is false on every path. -/
theorem sidLoop_cons (aces : List AceObj) (p : Perm) (s : Sid)
    (rest : List Sid) (fr : Option AceObj) :
    sidLoop aces p (s :: rest) fr =
      match findMatch aces p s with
      | some ace =>
          if ace.isGranting then .grantedBy ace
          else .rejected (if fr.isNone then some ace else fr)
      | none => .rejected fr := by
  cases hm : findMatch aces p s with
  | none => simp [sidLoop, hm]
  | some ace =>
      cases hg : ace.isGranting <;> simp [sidLoop, hm, hg]

/-- Leading permissions that produce no granting match for the head sid are
consumed by the outer loop without granting, leaving some accumulated first
rejection. -/
theorem permLoop_skip_no_grant (aces : List AceObj) (s0 : Sid)
    (rest : List Sid) (ps2 : List Perm) :
    ∀ (ps1 : List Perm) (fr : Option AceObj),
      (∀ q ∈ ps1, ∀ ace, findMatch aces q s0 = some ace →
        ace.isGranting = false) →
      ∃ fr', permLoop aces (s0 :: rest) (ps1 ++ ps2) fr =
        permLoop aces (s0 :: rest) ps2 fr'
  | [], fr, _ => ⟨fr, rfl⟩
  | q :: qs, fr, hno => by
      have hq := fun ace h => hno q (List.mem_cons_self q qs) ace h
      have hqs : ∀ q' ∈ qs, ∀ ace, findMatch aces q' s0 = some ace →
          ace.isGranting = false :=
        fun q' hq' => hno q' (List.mem_cons_of_mem q hq')
      cases hm : findMatch aces q s0 with
      | none =>
          have := permLoop_skip_no_grant aces s0 rest ps2 qs fr hqs
          simpa [permLoop, sidLoop_cons, hm] using this
      | some ace =>
          have hg : ace.isGranting = false := hq ace hm
          have := permLoop_skip_no_grant aces s0 rest ps2 qs
            (if fr.isNone then some ace else fr) hqs
          simpa [permLoop, sidLoop_cons, hm, hg] using this

/-- The console auditor output of the single audit call on the grant path. -/
theorem consoleOutput_auditCall_true (admin : Bool) (e : AceObj) :
    consoleOutput (auditCall admin true e) =
      (if admin = false ∧ e.auditSuccessFlag = true then [(true, e)] else []) := by
  rcases e with d | ⟨s, p, g⟩
  · cases admin
    · cases hd : d.auditSuccess <;>
        simp [auditCall, consoleOutput, AceObj.isAuditable,
          AceObj.auditSuccessFlag, hd]
    · simp [auditCall, consoleOutput, AceObj.isAuditable]
  · cases admin <;>
      simp [auditCall, consoleOutput, AceObj.isAuditable, AceObj.auditSuccessFlag]

/-- Claim C4 (amended): when the evaluation examines a (permission, sid) pair
— the sid being the first requested one, since the sid loop never advances,
and no earlier requested permission having produced a granting match for it —
and the first matching entry for that pair grants, `IsGranted` returns
`(true, nil)` at once, no matter what permissions or sids follow, and the
audited output carries `granted=true` exactly when `admin` is false and the
entry's auditSuccess flag is set. -/
theorem c4_grant_immediate (a : AclState) (ps1 ps2 : List Perm) (p : Perm)
    (s0 : Sid) (rest : List Sid) (admin : Bool) (e : AceObj)
    (hl : a.isSidLoaded (s0 :: rest) = true)
    (hprev : ∀ q ∈ ps1, ∀ ace, findMatch a.acesList q s0 = some ace →
      ace.isGranting = false)
    (hmatch : findMatch a.acesList p s0 = some e)
    (hgrant : e.isGranting = true) :
    isGranted a (ps1 ++ p :: ps2) (s0 :: rest) admin =
      { granted := true, err := none, audits := auditCall admin true e } ∧
    consoleOutput (isGranted a (ps1 ++ p :: ps2) (s0 :: rest) admin).audits =
      (if admin = false ∧ e.auditSuccessFlag = true then [(true, e)] else []) := by
  obtain ⟨i, o, ow, parentOpt, inh, aces, l⟩ := a
  simp only [AclState.acesList] at hprev hmatch
  obtain ⟨fr', hskip⟩ :=
    permLoop_skip_no_grant aces s0 rest (p :: ps2) ps1 none hprev
  have hloop : permLoop aces (s0 :: rest) (ps1 ++ p :: ps2) none =
      .granted e := by
    rw [hskip]
    simp [permLoop, sidLoop_cons, hmatch, hgrant]
  have hout : isGranted (.mk i o ow parentOpt inh aces l)
      (ps1 ++ p :: ps2) (s0 :: rest) admin =
      { granted := true, err := none, audits := auditCall admin true e } := by
    rw [isGranted, if_pos hl]
    simp [check, hloop]
  exact ⟨hout, by rw [hout]; exact consoleOutput_auditCall_true admin e⟩

def c4GrantAce : AceData :=
  ⟨.principal "bob", readPermission, true, true, false⟩

def c4Acl : AclState :=
  .mk 4 ("Document", 45) (.principal "alice") none false [.entry c4GrantAce] none

/-- Witness for C4: permissions `[Write, Read, Delete]`, sids `[bob, carol]`;
Write has no match for bob, Read's first match grants with auditSuccess
set. -/
theorem c4_grant_immediate_witness :
    c4Acl.isSidLoaded [Sid.principal "bob", Sid.principal "carol"] = true ∧
    isGranted c4Acl [writePermission, readPermission, deletePermission]
        [Sid.principal "bob", Sid.principal "carol"] false =
      { granted := true, err := none, audits := [(true, .entry c4GrantAce)] } ∧
    consoleOutput (isGranted c4Acl
        [writePermission, readPermission, deletePermission]
        [Sid.principal "bob", Sid.principal "carol"] false).audits =
      [(true, .entry c4GrantAce)] := by
  have hprev : ∀ q ∈ [writePermission], ∀ ace,
      findMatch c4Acl.acesList q (Sid.principal "bob") = some ace →
      ace.isGranting = false := by
    intro q hq ace h
    simp only [List.mem_singleton] at hq
    subst hq
    rw [show findMatch c4Acl.acesList writePermission (Sid.principal "bob")
      = none from rfl] at h
    cases h
  have h := c4_grant_immediate c4Acl [writePermission] [deletePermission]
    readPermission (Sid.principal "bob") [Sid.principal "carol"] false
    (.entry c4GrantAce) rfl hprev rfl rfl
  exact ⟨rfl, h.1.trans rfl, h.2.trans rfl⟩

def c4DenyAce : AceData :=
  ⟨.principal "s1", readPermission, false, false, false⟩

def c4LaterGrantAce : AceData :=
  ⟨.principal "s2", readPermission, true, false, false⟩

def c4CexAcl : AclState :=
  .mk 40 ("Document", 48) (.principal "alice") none false
    [.entry c4DenyAce, .entry c4LaterGrantAce] none

/-- Counterexample to C4 as stated: the pair `(Read, s2)` has a granting
first match, yet the call denies with an error, because the denying match
for the earlier sid `s1` ends the sid scan for `Read`. -/
theorem c4_counterexample :
    findMatch c4CexAcl.acesList readPermission (Sid.principal "s2") =
      some (.entry c4LaterGrantAce) ∧
    (AceObj.entry c4LaterGrantAce).isGranting = true ∧
    (isGranted c4CexAcl [readPermission]
        [Sid.principal "s1", Sid.principal "s2"] false).granted = false ∧
    (isGranted c4CexAcl [readPermission]
        [Sid.principal "s1", Sid.principal "s2"] false).err =
      some noEntryFoundMsg :=
  ⟨rfl, rfl, rfl, rfl⟩

/-! ## Mutation gate (Claim C5) -/

/-- Claim C5: every mutator consults the authorization gate before any index
validation or mutation; when the gate denies, the mutator returns the gate's
error and the Acl state is returned untouched.  The index is arbitrary (it
may even be invalid), showing the gate runs first. -/
theorem c5_gate_denied_no_mutation
    (authz : AclState → Change → Option String) (a : AclState)
    (index : Int) (p : Perm) (s : Sid) (g : Bool) (newOwner : Sid)
    (newParent : Option AclState) (inh su fa : Bool)
    (eGeneral eOwnership eAuditing : String)
    (hg : authz a .general = some eGeneral)
    (ho : authz a .ownership = some eOwnership)
    (ha : authz a .auditing = some eAuditing) :
    insertAce authz a index p s g = .fail eGeneral a ∧
    updateAce authz a index p = .fail eGeneral a ∧
    deleteAce authz a index = .fail eGeneral a ∧
    setOwner authz a newOwner = .fail eOwnership a ∧
    setParent authz a newParent = .fail eGeneral a ∧
    setEntriesInheriting authz a inh = .fail eGeneral a ∧
    updateAuditing authz a index su fa = .fail eAuditing a := by
  refine ⟨?_, ?_, ?_, ?_, ?_, ?_, ?_⟩ <;>
    simp [insertAce, updateAce, deleteAce, setOwner, setParent,
      setEntriesInheriting, updateAuditing, hg, ho, ha]

def c5Acl : AclState :=
  .mk 5 ("Document", 46) (.principal "alice") none false
    [.entry ⟨.principal "bob", readPermission, true, false, false⟩] none

/-- A gate that denies every change class with a class-specific error. -/
def c5Authz : AclState → Change → Option String :=
  fun _ c =>
    match c with
    | .general => some "general denied"
    | .ownership => some "ownership denied"
    | .auditing => some "auditing denied"

theorem c5_gate_denied_no_mutation_witness :
    c5Authz c5Acl .general = some "general denied" ∧
    insertAce c5Authz c5Acl 0 writePermission (Sid.principal "carol") true =
      .fail "general denied" c5Acl ∧
    updateAce c5Authz c5Acl 0 writePermission = .fail "general denied" c5Acl ∧
    deleteAce c5Authz c5Acl 0 = .fail "general denied" c5Acl ∧
    setOwner c5Authz c5Acl (Sid.principal "carol") =
      .fail "ownership denied" c5Acl ∧
    setParent c5Authz c5Acl none = .fail "general denied" c5Acl ∧
    setEntriesInheriting c5Authz c5Acl true = .fail "general denied" c5Acl ∧
    updateAuditing c5Authz c5Acl 0 true true = .fail "auditing denied" c5Acl := by
  have h := c5_gate_denied_no_mutation c5Authz c5Acl 0 writePermission
    (Sid.principal "carol") true (Sid.principal "carol") none true true true
    "general denied" "ownership denied" "auditing denied" rfl rfl rfl
  exact ⟨rfl, h.1, h.2.1, h.2.2.1, h.2.2.2.1, h.2.2.2.2.1, h.2.2.2.2.2.1,
    h.2.2.2.2.2.2⟩

/-! ## Loaded-Sid gate (Claim C6) -/

/-- Claim C6 (amended): a requested Sid outside a non-nil `loadedSids` makes
`IsGranted` fail at once with the unloaded-Sid error, with no entry
evaluation and no audit; and whenever `IsSidLoaded` holds, `IsGranted` itself
passes the gate and hands the call to the checker (which may still surface an
unloaded-Sid error from a parent Acl with its own restriction). -/
theorem c6_unloaded_sid_gate (a : AclState) (perms : List Perm)
    (sids : List Sid) (admin : Bool) :
    (∀ L, a.loadedSids = some L → ∀ s ∈ sids,
      (∀ l ∈ L, sidEquals s l = false) →
      isGranted a perms sids admin =
        { granted := false, err := some unloadedSidMsg, audits := [] }) ∧
    (a.isSidLoaded sids = true →
      isGranted a perms sids admin = check a perms sids admin) := by
  constructor
  · intro L hL s hs hnone
    have hne : sids.isEmpty = false := by
      cases sids with
      | nil => cases hs
      | cons x xs => rfl
    have hany : L.any (fun l => sidEquals s l) = false := by
      rw [List.any_eq_false]
      intro l hl
      simp [hnone l hl]
    have hall : sids.all (fun s' => L.any (fun l => sidEquals s' l)) = false := by
      rw [List.all_eq_false]
      exact ⟨s, hs, by simp [hany]⟩
    have hfalse : a.isSidLoaded sids = false := by
      simp [AclState.isSidLoaded, hL, hne, hall]
    simp [isGranted, hfalse]
  · intro h
    simp [isGranted, h]

def c6WAcl : AclState :=
  .mk 62 ("Document", 49) (.principal "alice") none false
    [.entry ⟨.principal "bob", readPermission, true, false, false⟩]
    (some [Sid.authority "loadedRole"])

def c6LoadedAcl : AclState :=
  .mk 63 ("Document", 50) (.principal "alice") none false [] none

theorem c6_unloaded_sid_gate_witness :
    isGranted c6WAcl [readPermission] [Sid.principal "bob"] false =
      { granted := false, err := some unloadedSidMsg, audits := [] } ∧
    isGranted c6LoadedAcl [readPermission] [Sid.principal "bob"] false =
      check c6LoadedAcl [readPermission] [Sid.principal "bob"] false := by
  constructor
  · refine (c6_unloaded_sid_gate c6WAcl [readPermission] [Sid.principal "bob"]
      false).1 [Sid.authority "loadedRole"] rfl (Sid.principal "bob")
      (by simp) ?_
    intro l hl
    simp only [List.mem_singleton] at hl
    subst hl
    rfl
  · exact (c6_unloaded_sid_gate c6LoadedAcl [readPermission]
      [Sid.principal "bob"] false).2 rfl

def c6ParentAcl : AclState :=
  .mk 61 ("Folder", 2) (.principal "alice") none false []
    (some [Sid.authority "loadedOnly"])

def c6ChildAcl : AclState :=
  .mk 60 ("Document", 47) (.principal "alice") (some c6ParentAcl) true [] none

/-- Counterexample to C6's converse as stated: the child's `IsSidLoaded` is
true, yet `IsGranted` still returns the unloaded-Sid error, surfaced by the
recursive call into the inheriting parent whose own restriction excludes the
requested Sid. -/
theorem c6_counterexample :
    c6ChildAcl.isSidLoaded [Sid.principal "bob"] = true ∧
    (isGranted c6ChildAcl [readPermission] [Sid.principal "bob"] false).err =
      some unloadedSidMsg :=
  ⟨rfl, rfl⟩

/-! ## Freshness of the GetEntries copy (Claim C9) -/

theorem set_concat_length {α : Type} (h : List α) (c v : α) :
    (h ++ [c]).set h.length v = h ++ [v] := by
  induction h with
  | nil => rfl
  | cons x xs ih => simp [List.set, ih]

theorem heapRead_concat_length (h : Heap) (c : List AceObj) :
    heapRead (h ++ [c]) h.length = c := by
  simp [heapRead, List.getD, List.getElem?_concat_length]

theorem heapRead_append_left (h l2 : Heap) (r : Nat) (hr : r < h.length) :
    heapRead (h ++ l2) r = heapRead h r := by
  induction h generalizing r with
  | nil => exact absurd hr (Nat.not_lt_zero r)
  | cons x xs ih =>
      cases r with
      | zero => rfl
      | succ n => exact ih n (Nat.lt_of_succ_lt_succ hr)

/-- Claim C9: `GetEntries` hands back a freshly allocated cell holding the
same entries in the same order; overwriting the returned cell does not change
the Acl's own entry cell, so a later `IsGranted` over the Acl's entries (and
a later `GetEntries`) are unaffected. -/
theorem c9_entries_copy_fresh (h : Heap) (r : Nat) (v : List AceObj)
    (i : Nat) (o : String × Nat) (ow : Sid) (parentOpt : Option AclState)
    (inh : Bool) (l : Option (List Sid)) (perms : List Perm)
    (sids : List Sid) (admin : Bool) (hr : r < h.length) :
    (getEntriesAlloc h r).2 ≠ r ∧
    heapRead (getEntriesAlloc h r).1 (getEntriesAlloc h r).2 = heapRead h r ∧
    heapRead (heapWrite (getEntriesAlloc h r).1 (getEntriesAlloc h r).2 v) r
      = heapRead h r ∧
    isGranted (.mk i o ow parentOpt inh
        (heapRead (heapWrite (getEntriesAlloc h r).1 (getEntriesAlloc h r).2 v)
          r) l) perms sids admin =
      isGranted (.mk i o ow parentOpt inh (heapRead h r) l) perms sids admin := by
  have hwrite : heapWrite (getEntriesAlloc h r).1 (getEntriesAlloc h r).2 v =
      h ++ [v] := by
    simp only [getEntriesAlloc, heapWrite]
    exact set_concat_length h (heapRead h r) v
  have hframe : heapRead (heapWrite (getEntriesAlloc h r).1
      (getEntriesAlloc h r).2 v) r = heapRead h r := by
    rw [hwrite]
    exact heapRead_append_left h [v] r hr
  refine ⟨ne_of_gt hr, ?_, hframe, by rw [hframe]⟩
  exact heapRead_concat_length h (heapRead h r)

def c9Heap : Heap :=
  [[.entry ⟨.principal "bob", readPermission, true, false, false⟩]]

theorem c9_entries_copy_fresh_witness :
    0 < c9Heap.length ∧
    (getEntriesAlloc c9Heap 0).2 ≠ 0 ∧
    heapRead (getEntriesAlloc c9Heap 0).1 (getEntriesAlloc c9Heap 0).2 =
      heapRead c9Heap 0 ∧
    heapRead (heapWrite (getEntriesAlloc c9Heap 0).1
      (getEntriesAlloc c9Heap 0).2 []) 0 = heapRead c9Heap 0 ∧
    isGranted (.mk 9 ("Document", 52) (.principal "alice") none false
        (heapRead (heapWrite (getEntriesAlloc c9Heap 0).1
          (getEntriesAlloc c9Heap 0).2 []) 0) none)
        [readPermission] [Sid.principal "bob"] false =
      isGranted (.mk 9 ("Document", 52) (.principal "alice") none false
        (heapRead c9Heap 0) none) [readPermission] [Sid.principal "bob"]
        false := by
  have h := c9_entries_copy_fresh c9Heap 0 [] 9 ("Document", 52)
    (.principal "alice") none false none [readPermission]
    [Sid.principal "bob"] false (by decide)
  exact ⟨by decide, h.1, h.2.1, h.2.2.1, h.2.2.2⟩

/-! ## Safety of the ignored type assertions (Claim C10) -/

/-- Whether a stored `Ace` is the package's concrete `*accessControlEntry`. -/
def isConcreteAce : AceObj → Bool
  | .entry _ => true
  | .foreign _ _ _ => false

def allConcrete (a : AclState) : Bool :=
  a.acesList.all isConcreteAce

theorem acesList_withAces (a : AclState) (L : List AceObj) :
    (a.withAces L).acesList = L := by
  cases a
  rfl

/-- Claim C10: when every stored entry is the concrete type (as `InsertAce`
guarantees — the third conjunct), the ignored type assertions in `UpdateAce`
and `UpdateAuditing` succeed and no nil pointer is dereferenced: with the
gate allowing and a valid index, both return nil (an `ok` updated state). -/
theorem c10_concrete_entries_safe
    (authz : AclState → Change → Option String) (a : AclState)
    (index : Int) (p : Perm) (su fa : Bool)
    (hc : allConcrete a = true)
    (hgateG : authz a .general = none)
    (hgateA : authz a .auditing = none)
    (h0 : 0 ≤ index)
    (hlen : index < (a.acesList.length : Int)) :
    (∃ a2, updateAce authz a index p = .ok a2) ∧
    (∃ a2, updateAuditing authz a index su fa = .ok a2) ∧
    (∀ (i2 : Int) (p2 : Perm) (s2 : Sid) (g2 : Bool) (a2 : AclState),
      insertAce authz a i2 p2 s2 g2 = .ok a2 → allConcrete a2 = true) := by
  have hn : index.toNat < a.acesList.length := by omega
  have hget : a.acesList.get? index.toNat =
      some (a.acesList.get ⟨index.toNat, hn⟩) := List.get?_eq_get hn
  have hmem : a.acesList.get ⟨index.toNat, hn⟩ ∈ a.acesList :=
    List.get_mem _ _ _
  have hconc : ∀ e ∈ a.acesList, isConcreteAce e = true := by
    rw [allConcrete, List.all_eq_true] at hc
    exact hc
  obtain ⟨d, hd⟩ : ∃ d, a.acesList.get ⟨index.toNat, hn⟩ = .entry d := by
    cases he : a.acesList.get ⟨index.toNat, hn⟩ with
    | entry d => exact ⟨d, rfl⟩
    | foreign s q g =>
        have := hconc _ hmem
        rw [he] at this
        simp [isConcreteAce] at this
  have hver : verifyIndexExists a index = none := by
    simp only [verifyIndexExists]
    rw [if_neg (by omega), if_neg (by omega)]
  refine ⟨?_, ?_, ?_⟩
  · simp only [updateAce, hgateG, hver, hget, hd]
    exact ⟨_, rfl⟩
  · simp only [updateAuditing, hgateA, hver, hget, hd]
    exact ⟨_, rfl⟩
  · intro i2 p2 s2 g2 a2 hins
    simp only [insertAce, hgateG] at hins
    by_cases hbad : (i2 < 0 || i2 > (a.acesList.length : Int)) = true
    · rw [if_pos hbad] at hins
      cases hins
    · rw [if_neg hbad] at hins
      injection hins with hins
      subst hins
      rw [allConcrete, acesList_withAces, List.all_eq_true]
      intro e he
      rcases List.mem_append.mp he with hmem2 | hmem2
      · rcases List.mem_append.mp hmem2 with hmem3 | hmem3
        · exact hconc e (List.take_subset _ _ hmem3)
        · simp only [List.mem_singleton] at hmem3
          subst hmem3
          rfl
      · exact hconc e (List.drop_subset _ _ hmem2)

def c10Acl : AclState :=
  .mk 10 ("Document", 51) (.principal "alice") none false
    [.entry ⟨.principal "bob", readPermission, true, false, false⟩] none

def c10Authz : AclState → Change → Option String :=
  fun _ _ => none

theorem c10_concrete_entries_safe_witness :
    allConcrete c10Acl = true ∧
    (0 : Int) ≤ 0 ∧
    (0 : Int) < (c10Acl.acesList.length : Int) ∧
    (∃ a2, updateAce c10Authz c10Acl 0 writePermission = .ok a2) ∧
    (∃ a2, updateAuditing c10Authz c10Acl 0 true false = .ok a2) ∧
    (∀ (i2 : Int) (p2 : Perm) (s2 : Sid) (g2 : Bool) (a2 : AclState),
      insertAce c10Authz c10Acl i2 p2 s2 g2 = .ok a2 →
      allConcrete a2 = true) := by
  have h := c10_concrete_entries_safe c10Authz c10Acl 0 writePermission true
    false rfl rfl rfl (by decide) (by decide)
  exact ⟨rfl, by decide, by decide, h.1, h.2.1, h.2.2⟩

end StreamtuneAcl
